import Mathlib

/-!
Verification model of the React-Store product management application.

The TypeScript source is shallowly embedded: every piece of text is
modelled as a list of characters (`Str`), JavaScript arrays as Lean
lists, and TypeScript numbers as `Int` (all numeric values appearing in
the modelled code paths are integers).  Stateful React components become
explicit state-passing functions; calls to the backend are recorded in a
trace (`NetCall`) and backend responses enter as explicit parameters, so
that "which network calls an operation performs" is a provable property.
Platform builtins used by the code (String.prototype.split, Number(...),
JSON.parse, Date.getTime, Array.prototype.sort) are modelled by
executable functions that agree with the builtin on the inputs this
application produces; each such model carries a doc comment naming the
restriction.
-/

/-- Text is modelled as a list of characters. -/
abbrev Str := List Char

/-- Converts a Lean string literal into the character-list model. -/
def str (s : String) : Str := s.data

/-- JavaScript String.prototype.toLowerCase modelled as per-character
lowercasing (agrees with the builtin on ASCII text, which is all this
application compares case-insensitively). -/
def lowerStr (s : Str) : Str := s.map Char.toLower

/-- Whether `n` is a prefix of `h`, by character equality. -/
def headMatch : Str → Str → Bool
  | [], _ => true
  | _ :: _, [] => false
  | a :: as, b :: bs => a == b && headMatch as bs

/-- JavaScript String.prototype.includes: substring containment. -/
def containsSub (n : Str) : Str → Bool
  | [] => n.isEmpty
  | c :: t => headMatch n (c :: t) || containsSub n t

/-- JavaScript String.prototype.split with a one-character separator:
splits into the (always nonempty) list of fields between occurrences of
the separator. -/
def splitOnChar (sep : Char) : Str → List Str
  | [] => [[]]
  | c :: cs =>
    match splitOnChar sep cs with
    | [] => [[c]]
    | h :: t => if c == sep then [] :: h :: t else (c :: h) :: t

/-- JavaScript String.prototype.replace with a global one-character
pattern: every occurrence of `c` is replaced by `r`. -/
def replaceChar (c : Char) (r : Str) (s : Str) : Str :=
  s.foldr (fun ch acc => (if ch == c then r else [ch]) ++ acc) []

/-- Leading and trailing whitespace removal (the trimming JavaScript
Number(...) applies to its argument). -/
def trimStr (s : Str) : Str :=
  ((s.dropWhile Char.isWhitespace).reverse.dropWhile Char.isWhitespace).reverse

/-- Decimal digit character for a value below ten. -/
def digitChar (n : Nat) : Char := Char.ofNat (48 + n)

/-- Decimal digits of a natural number, with explicit fuel so the
recursion is structural; `fuel = n + 1` always suffices. -/
def natStrAux : Nat → Nat → Str
  | 0, _ => []
  | fuel + 1, n =>
    if n < 10 then [digitChar n]
    else natStrAux fuel (n / 10) ++ [digitChar (n % 10)]

/-- Decimal rendering of a natural number. -/
def natStr (n : Nat) : Str := natStrAux (n + 1) n

/-- JavaScript number-to-string conversion, restricted to the integer
values this application handles. -/
def intStr (i : Int) : Str :=
  if i < 0 then '-' :: natStr i.natAbs else natStr i.natAbs

/-- Value of a nonempty all-digit string; `none` on any non-digit. -/
def digitsVal : Str → Option Nat
  | [] => none
  | s =>
    s.foldl
      (fun acc c =>
        acc.bind fun n => if c.isDigit then some (n * 10 + (c.toNat - 48)) else none)
      (some 0)

/-- JavaScript Number(...) coercion, restricted to optionally-signed
decimal integer literals surrounded by whitespace: the whole trimmed
string must be digits (an empty string coerces to 0).  Any other input
gives `none`, modelling NaN.  All numeric fields this application
coerces are of this shape or invalid. -/
def jsNumber (s : Str) : Option Int :=
  match trimStr s with
  | [] => some 0
  | '-' :: rest => (digitsVal rest).map (fun n => -(n : Int))
  | t => (digitsVal t).map (fun n => (n : Int))

/-- Strict lexicographic character-list order (the model of
String.prototype.localeCompare for the plain ASCII names compared). -/
def strLt : Str → Str → Bool
  | [], [] => false
  | [], _ :: _ => true
  | _ :: _, [] => false
  | a :: as, b :: bs => if a < b then true else if b < a then false else strLt as bs

/-- localeCompare modelled as three-way lexicographic comparison. -/
def localeCmp (a b : Str) : Int :=
  if strLt a b then -1 else if strLt b a then 1 else 0

/-- new Date(s).getTime() restricted to the fixed-width ISO-8601 UTC
timestamps this application stores: on strings of equal format the
chronological order coincides with the order of the concatenated digit
characters, which is the value computed here. -/
def isoTime (s : Str) : Int :=
  s.foldl (fun acc c => if c.isDigit then acc * 10 + ((c.toNat : Int) - 48) else acc) 0

/-- One catalog item, as in the Product interfaces of the components. -/
structure Product where
  id : Str
  name : Str
  category : Str
  price : Int
  stock : Int
  description : Str
  url : Option Str := none
  updatedAt : Option Str := none
deriving DecidableEq

/-- A product payload without backend id, the body of a form add
(Omit of Product without the id field). -/
structure NewProduct where
  name : Str
  category : Str
  price : Int
  stock : Int
  description : Str
  url : Option Str := none
  updatedAt : Option Str := none
deriving DecidableEq

/-- A record parsed from one accepted CSV line in handleBulkUpload.
price and stock hold the Number(...) coercion of the raw field, with
`none` modelling NaN. -/
structure Candidate where
  id : Str
  name : Str
  category : Str
  price : Option Int
  stock : Option Int
  description : Str
  url : Option Str
  updatedAt : Str
deriving DecidableEq

/-- One backend account record served by GET /users. -/
structure Account where
  username : Str
  password : Str
  role : Str
deriving DecidableEq

/-- The session value: exactly the two fields the application stores. -/
structure User where
  username : Str
  role : Str
deriving DecidableEq

/-- A toast notification: the dedup key passed as the id option and the
displayed message. -/
structure Toast where
  key : Str
  msg : Str
deriving DecidableEq

/-- A network request issued by the product components. -/
inductive NetCall where
  | create (body : NewProduct)
  | bulkCreate (body : Candidate)
  | replace (id : Str) (body : Product)
deriving DecidableEq

/-- Client-side error taxonomy of the modelled operations. -/
inductive AppError where
  | duplicate
  | transport
deriving DecidableEq

/-- Result of one state-manager operation: the collection afterwards,
the network calls made, and the reported error if any. -/
structure OpResult where
  products : List Product
  calls : List NetCall
  error : Option AppError
deriving DecidableEq

/-! ## Product State Manager (ProductList component) -/

/-- The duplicate-name guard of addProduct: some existing product has
the same name case-insensitively. -/
def dupName (products : List Product) (name : Str) : Bool :=
  products.any (fun p => lowerStr p.name == lowerStr name)

/-- The duplicate-name guard of updateProduct: some product other than
the one being updated has the same name case-insensitively. -/
def dupNameOther (products : List Product) (up : Product) : Bool :=
  products.any (fun p => lowerStr p.name == lowerStr up.name && !(p.id == up.id))

/-- addProduct of the ProductList component.  The duplicate check runs
first and returns early; otherwise the POST is issued, and on success
the backend-returned record is appended.  The backend response enters
as the explicit parameter `resp`. -/
def addProduct (resp : Except Unit Product) (products : List Product)
    (product : NewProduct) : OpResult :=
  if dupName products product.name then
    { products := products, calls := [], error := some .duplicate }
  else
    match resp with
    | .ok created =>
      { products := products ++ [created], calls := [.create product], error := none }
    | .error _ =>
      { products := products, calls := [.create product], error := some .transport }

/-- updateProduct of the ProductList component: duplicate check against
records with a different id, then PUT; on success the matching entry is
replaced in place by the backend response. -/
def updateProduct (resp : Except Unit Product) (products : List Product)
    (up : Product) : OpResult :=
  if dupNameOther products up then
    { products := products, calls := [], error := some .duplicate }
  else
    match resp with
    | .ok r =>
      { products := products.map (fun p => if p.id == up.id then r else p),
        calls := [.replace up.id up], error := none }
    | .error _ =>
      { products := products, calls := [.replace up.id up], error := some .transport }

/-- The low-stock toast fetchProducts and updateProduct emit, keyed by
the product id. -/
def lowStockToast (p : Product) : Toast :=
  { key := str "low-stock-" ++ p.id,
    msg := str "Low stock alert: " ++ p.name ++ str " has only "
      ++ intStr p.stock ++ str " units left!" }

/-- The notifications emitted by the success path of fetchProducts: the
forEach loop toasts every fetched product with stock strictly below 10. -/
def loadNotifs (fetched : List Product) : List Toast :=
  fetched.foldl (fun acc p => if p.stock < 10 then acc ++ [lowStockToast p] else acc) []

/-- Replacement of a displayed toast by a re-triggered one carrying the
same key. -/
def replaceKey (t e : Toast) : Toast := if e.key == t.key then t else e

/-- react-hot-toast semantics of toast(..., with an id): a toast whose
key is already present replaces that entry, otherwise it is appended. -/
def applyToast (store : List Toast) (t : Toast) : List Toast :=
  if store.any (fun e => e.key == t.key) then store.map (replaceKey t)
  else store ++ [t]

/-! ## Derived views -/

/-- Stable insertion of `x` into a list sorted by the JavaScript
comparator `cmp`: `x` passes every element strictly before it
(comparator negative) and stops at the first other element, so equal
elements keep their original relative order. -/
def jsInsert (cmp : Product → Product → Int) (x : Product) :
    List Product → List Product
  | [] => [x]
  | y :: ys => if cmp y x < 0 then y :: jsInsert cmp x ys else x :: y :: ys

/-- Array.prototype.sort modelled as the stable sort determined by the
comparator; the ECMAScript specification requires sort stability, and
for a consistent comparator the stable result is unique, so this
insertion sort computes it. -/
def jsSort (cmp : Product → Product → Int) : List Product → List Product
  | [] => []
  | x :: xs => jsInsert cmp x (jsSort cmp xs)

/-- The comparator selected by the sortBy string in filteredProducts. -/
def sortByCmp (sortBy : Str) (a b : Product) : Int :=
  if sortBy == str "price-asc" then a.price - b.price
  else if sortBy == str "price-desc" then b.price - a.price
  else if sortBy == str "name-asc" then localeCmp a.name b.name
  else if sortBy == str "name-desc" then localeCmp b.name a.name
  else 0

/-- The name filter of filteredProducts: case-insensitive substring
match of the search text. -/
def nameMatches (search : Str) (p : Product) : Bool :=
  containsSub (lowerStr search) (lowerStr p.name)

/-- The category filter: exact match when a category is selected. -/
def catMatches (categoryFilter : Str) (p : Product) : Bool :=
  if categoryFilter == [] then true else p.category == categoryFilter

/-- filteredProducts of the ProductList component, as a state-passing
function: the two filter calls allocate fresh arrays, so the in-place
sort acts on the second copy and the component state (second component)
is the untouched input collection. -/
def filteredProductsRun (search categoryFilter sortBy : Str)
    (products : List Product) : List Product × List Product :=
  let fp := (products.filter (nameMatches search)).filter (catMatches categoryFilter)
  (jsSort (sortByCmp sortBy) fp, products)

/-- The comparator of recentUpdates: descending by the getTime value of
updatedAt (the component fills updatedAt before storing, modelled by
defaulting an absent value to the empty string). -/
def updatedDescCmp (a b : Product) : Int :=
  isoTime (b.updatedAt.getD []) - isoTime (a.updatedAt.getD [])

/-- recentUpdates of the AdminDashboard component, as a state-passing
function: sort is invoked directly on the products state array, so the
in-place sort becomes the new component state (second component) and the
view is its first five entries. -/
def recentUpdatesRun (products : List Product) : List Product × List Product :=
  let sorted := jsSort updatedDescCmp products
  (sorted.take 5, sorted)

/-! ## Import/Export Adapter (AddProductForm component) -/

/-- Wraps a field in double quotes (the export template writes each
field between quote characters). -/
def quoteField (s : Str) : Str := '"' :: s ++ ['"']

/-- One data row of exportToCSV in AddProductForm: every field is
interpolated between quote characters, and only the description field
has its internal quotes doubled by the replace call. -/
def exportRow (p : Product) : Str :=
  quoteField p.id ++ [','] ++ quoteField p.name ++ [','] ++ quoteField p.category
    ++ [','] ++ quoteField (intStr p.price) ++ [','] ++ quoteField (intStr p.stock)
    ++ [','] ++ quoteField (replaceChar '"' (str "\"\"") p.description)
    ++ [','] ++ quoteField (p.url.getD []) ++ [','] ++ quoteField (p.updatedAt.getD [])

/-- The fixed header row shared by both CSV exports. -/
def csvHeader : Str := str "ID,Name,Category,Price,Stock,Description,URL,UpdatedAt"

/-- exportToCSV of AddProductForm: the header followed by one row per
product, joined with newlines. -/
def exportCSV (products : List Product) : Str :=
  List.intercalate ['\n'] (csvHeader :: products.map exportRow)

/-- One data row of the exportToCSV variant in the Navbar source file:
the fields are joined with commas without quoting, and the replace call
then rewrites every comma of the whole row, separators included, into a
space. -/
def navbarRow (p : Product) : Str :=
  replaceChar ',' [' ']
    (p.id ++ [','] ++ p.name ++ [','] ++ p.category ++ [','] ++ intStr p.price
      ++ [','] ++ intStr p.stock ++ [','] ++ p.description ++ [','] ++ p.url.getD []
      ++ [','] ++ p.updatedAt.getD [])

/-- Accessing field `i` of the destructured split result; a missing
position is JavaScript undefined, which the emptiness tests and the
default-value operators treat exactly like the empty string. -/
def fieldAt (fs : List Str) (i : Nat) : Str := fs.getD i []

/-- The acceptance test of one CSV line in handleBulkUpload: the first
five fields (id, name, category, price, stock) must be nonempty after
splitting on the comma. -/
def lineAccepted (line : Str) : Bool :=
  let fs := splitOnChar ',' line
  !(fieldAt fs 0 == []) && !(fieldAt fs 1 == []) && !(fieldAt fs 2 == [])
    && !(fieldAt fs 3 == []) && !(fieldAt fs 4 == [])

/-- The candidate record built from one accepted CSV line; `now` is the
new Date().toISOString() value substituted for an empty updatedAt
field. -/
def mkCandidate (now line : Str) : Candidate :=
  let fs := splitOnChar ',' line
  { id := fieldAt fs 0
    name := fieldAt fs 1
    category := fieldAt fs 2
    price := jsNumber (fieldAt fs 3)
    stock := jsNumber (fieldAt fs 4)
    description := fieldAt fs 5
    url := if fieldAt fs 6 == [] then none else some (fieldAt fs 6)
    updatedAt := if fieldAt fs 7 == [] then now else fieldAt fs 7 }

/-- The per-line parse of handleBulkUpload: split on the comma, reject
the line if any of the five required fields is empty, otherwise build
the candidate. -/
def parseLine (now line : Str) : Option Candidate :=
  if lineAccepted line then some (mkCandidate now line) else none

/-- The candidate list handleBulkUpload builds from the file text:
split into lines, drop the header line, parse each line, and keep the
non-null results. -/
def parseCSV (now text : Str) : List Candidate :=
  ((splitOnChar '\n' text).drop 1).filterMap (parseLine now)

/-- Result of the bulk-upload loop: the POST trace, the success count,
the onAdd invocations, and the final toast report. -/
structure BulkResult where
  calls : List NetCall
  successCount : Nat
  added : List Candidate
  report : Option Nat
deriving DecidableEq

/-- One iteration of the bulk-upload loop: the POST is attempted for
every candidate; when the backend accepts (per the `outcome` oracle) the
onAdd callback is invoked and the count incremented, and when it fails
the error is reported and the loop continues with the next candidate. -/
def bulkStep (outcome : Candidate → Bool) (acc : List NetCall × Nat × List Candidate)
    (c : Candidate) : List NetCall × Nat × List Candidate :=
  if outcome c then (acc.1 ++ [.bulkCreate c], acc.2.1 + 1, acc.2.2 ++ [c])
  else (acc.1 ++ [.bulkCreate c], acc.2.1, acc.2.2)

/-- handleBulkUpload of AddProductForm on the file text: parse the
candidates, submit them sequentially, and report the success count at
the end only when it is positive. -/
def bulkUpload (outcome : Candidate → Bool) (now text : Str) : BulkResult :=
  let cands := parseCSV now text
  let r := cands.foldl (bulkStep outcome) ([], 0, [])
  { calls := r.1, successCount := r.2.1, added := r.2.2,
    report := if r.2.1 > 0 then some r.2.1 else none }

/-- The tuple the round-trip law compares, read off a collection
product; price and stock are wrapped so they compare against the
coerced candidate fields. -/
def tupleOfProduct (p : Product) : Str × Str × Option Int × Option Int :=
  (p.name, p.category, some p.price, some p.stock)

/-- The tuple the round-trip law compares, read off an imported
candidate. -/
def tupleOfCandidate (c : Candidate) : Str × Str × Option Int × Option Int :=
  (c.name, c.category, c.price, c.stock)

/-! ## Session Store (AuthContext) -/

/-- JSON string escaping restricted to the quote and backslash
characters (the fields this application serializes contain neither
control characters nor other escapes). -/
def jsonEscape (s : Str) : Str :=
  replaceChar '"' (str "\\\"") (replaceChar '\\' (str "\\\\") s)

/-- JSON.stringify of the stored session object: exactly the username
and role fields, in the order the login handler builds them. -/
def stringifyUser (u : User) : Str :=
  str "\x7b\"username\":\"" ++ jsonEscape u.username
    ++ str "\",\"role\":\"" ++ jsonEscape u.role ++ str "\"\x7d"

/-- Whether a serialized field needs no unescaping. -/
def cleanField (s : Str) : Bool := !(s.any (fun c => c == '"' || c == '\\'))

/-- Splits `s` at the first occurrence of the separator string `sep`,
returning the parts before and after it. -/
def splitOnceAt (sep : Str) : Str → Option (Str × Str)
  | [] => none
  | c :: t =>
    if headMatch sep (c :: t) then some ([], (c :: t).drop sep.length)
    else (splitOnceAt sep t).map (fun r => (c :: r.1, r.2))

/-- JSON.parse is a platform builtin, not code of this repository; it is
modelled faithfully on the subset of values this application persists:
the literal null and the exact object shape stringifyUser writes with
escape-free fields.  Every other input is rejected, which in particular
models the SyntaxError JSON.parse throws on malformed text such as a
bare word. -/
def parseJsonUser (s : Str) : Except Str (Option User) :=
  if s == str "null" then .ok none
  else
    match splitOnceAt (str "\x7b\"username\":\"") s with
    | some ([], rest) =>
      match splitOnceAt (str "\",\"role\":\"") rest with
      | some (u, tail) =>
        match splitOnceAt (str "\"\x7d") tail with
        | some (r, []) =>
          if cleanField u && cleanField r then .ok (some { username := u, role := r })
          else .error (str "unsupported escape")
        | _ => .error (str "parse error")
      | _ => .error (str "parse error")
    | _ => .error (str "parse error")

/-- The session-restoration initializer of AuthProvider: a missing entry
gives the anonymous session; a present entry is tested for truthiness
(the empty string is falsy and also gives the anonymous session) and any
other value goes through JSON.parse, whose failure propagates because
the initializer has no exception handler. -/
def restoreSession (saved : Option Str) : Except Str (Option User) :=
  match saved with
  | none => .ok none
  | some s => if s == [] then .ok none else parseJsonUser s

/-- The persistence effect of AuthProvider: a present user is written as
its JSON serialization and an absent user removes the entry. -/
def syncStore (u : Option User) : Option Str := u.map stringifyUser

/-- The credential test of the login handler: exact case-sensitive
equality on both username and password. -/
def credMatch (username password : Str) (a : Account) : Bool :=
  a.username == username && a.password == password

/-- The session value the login handler builds from a matched account:
exactly its username and role, never its password. -/
def sessionOf (a : Account) : User := { username := a.username, role := a.role }

/-- The login handler of AuthContext: linear search of the fetched
account list; on a match the session becomes exactly the username and
role of the matched account, otherwise an error is thrown. -/
def loginResult (accounts : List Account) (username password : Str) :
    Except Str User :=
  match accounts.find? (credMatch username password) with
  | some a => .ok (sessionOf a)
  | none => .error (str "Invalid credentials")

/-- The session and persisted entry after a login attempt: on success
the new session is stored and persisted by the sync effect; on failure
the thrown error leaves the previous session state untouched. -/
def loginRun (accounts : List Account) (username password : Str)
    (st : Option User × Option Str) : Option User × Option Str :=
  match loginResult accounts username password with
  | .ok u => (some u, syncStore (some u))
  | .error _ => st

/-- The logout handler with its sync effect: the session is cleared and
the persisted entry removed. -/
def logoutRun (_st : Option User × Option Str) : Option User × Option Str :=
  (none, syncStore none)

/-! ## Claim-side row descriptions and concrete scenario inputs -/

/-- The row format the specification describes for exportDelimited:
every field quoted AND internal quote characters escaped by doubling.
This definition follows the words of the specification; it is compared
against the row the source actually produces. -/
def claimRow (p : Product) : Str :=
  List.intercalate [',']
    (([p.id, p.name, p.category, intStr p.price, intStr p.stock, p.description,
      p.url.getD [], p.updatedAt.getD []]).map
      (fun s => quoteField (replaceChar '"' (str "\"\"") s)))

/-- The row exportToCSV of AddProductForm actually produces, described
field-by-field: every field quoted, but only the description escaped. -/
def amendedRow (p : Product) : Str :=
  List.intercalate [',']
    (([p.id, p.name, p.category, intStr p.price, intStr p.stock,
      replaceChar '"' (str "\"\"") p.description,
      p.url.getD [], p.updatedAt.getD []]).map quoteField)

/-- Scenario product: Widget with stock 5 (low). -/
def scWidget : Product :=
  { id := str "w1", name := str "Widget", category := str "Electronics",
    price := 100, stock := 5, description := str "" }

/-- Scenario product: Gadget with stock 50 (not low). -/
def scGadget : Product :=
  { id := str "g1", name := str "Gadget", category := str "Books",
    price := 30, stock := 50, description := str "" }

/-- Scenario candidate for the form: the name "widget" colliding
case-insensitively with the existing "Widget". -/
def cWidgetLower : NewProduct :=
  { name := str "widget", category := str "Electronics", price := 10,
    stock := 3, description := str "" }

/-- Scenario account list entry from the specification. -/
def adminAcct : Account :=
  { username := str "admin", password := str "secret", role := str "admin" }

/-- The session value a successful admin login stores. -/
def uAdmin : User := { username := str "admin", role := str "admin" }

/-- A CSV data line whose name collides case-insensitively with the
existing product "Widget". -/
def dupLine : Str := str "7,widget,Books,30,5"

/-- A bulk-upload file containing the header and the colliding line. -/
def dupText : Str := csvHeader ++ ['\n'] ++ dupLine

/-- The candidate parsed from the colliding line. -/
def dupCand : Candidate := mkCandidate (str "T0") dupLine

/-- The specification scenario: three CSV data lines, the second with an
empty price field. -/
def threeLineText : Str :=
  csvHeader ++ str "\n1,Alpha,Electronics,10,5\n2,Beta,Books,,5\n3,Gamma,Clothing,20,7"

/-- A bulk-upload file with a single valid data line. -/
def oneLineText : Str := csvHeader ++ str "\n9,Delta,Books,10,5"

/-- A product whose name contains an embedded quote character. -/
def quoteNameProd : Product := { scGadget with name := str "A\"B" }

/-- A product whose description contains an embedded comma. -/
def commaDescProd : Product := { scGadget with description := str "red, blue" }

/-- A product with the earlier timestamp. -/
def prodEarly : Product :=
  { scWidget with updatedAt := some (str "2024-01-01T00:00:00.000Z") }

/-- A product with the later timestamp. -/
def prodLate : Product :=
  { scGadget with updatedAt := some (str "2024-01-02T00:00:00.000Z") }

/-! ## Helper lemmas -/

/-- The add guard fires exactly when some existing name matches
case-insensitively. -/
theorem dupName_iff (products : List Product) (name : Str) :
    dupName products name = true ↔
      ∃ p ∈ products, lowerStr p.name = lowerStr name := by
  simp [dupName, List.any_eq_true, beq_iff_eq]

/-- The update guard fires exactly when a record of a different id has a
case-insensitively matching name. -/
theorem dupNameOther_iff (products : List Product) (up : Product) :
    dupNameOther products up = true ↔
      ∃ p ∈ products, lowerStr p.name = lowerStr up.name ∧ p.id ≠ up.id := by
  simp [dupNameOther, List.any_eq_true, beq_iff_eq, Bool.and_eq_true]

/-- The notification loop of fetchProducts accumulates exactly the
low-stock toasts. -/
theorem loadNotifs_foldl (l : List Product) (acc : List Toast) :
    l.foldl (fun acc p => if p.stock < 10 then acc ++ [lowStockToast p] else acc) acc
      = acc ++ (l.filter (fun p => p.stock < 10)).map lowStockToast := by
  induction l generalizing acc with
  | nil => simp
  | cons p t ih =>
    by_cases h : p.stock < 10
    · simp [List.foldl_cons, h, ih, List.filter_cons]
    · simp [List.foldl_cons, h, ih, List.filter_cons]

/-- Re-replacing a toast key is idempotent. -/
theorem replaceKey_idem (t e : Toast) :
    replaceKey t (replaceKey t e) = replaceKey t e := by
  cases h : e.key == t.key with
  | true => simp [replaceKey, h]
  | false => simp [replaceKey, h]

/-- Mapping the key replacement twice equals mapping it once. -/
theorem map_replaceKey_idem (t : Toast) (store : List Toast) :
    (store.map (replaceKey t)).map (replaceKey t) = store.map (replaceKey t) := by
  induction store with
  | nil => rfl
  | cons e s ih => simp [replaceKey_idem, ih]

/-- When no stored toast has the key, the replacement map is the
identity. -/
theorem map_replaceKey_of_no_key (t : Toast) (store : List Toast)
    (h : store.any (fun e => e.key == t.key) = false) :
    store.map (replaceKey t) = store := by
  induction store with
  | nil => rfl
  | cons e s ih =>
    simp only [List.any_cons, Bool.or_eq_false_iff] at h
    simp [replaceKey, h.1, ih h.2]

/-- After applying a toast its key is present in the store. -/
theorem applyToast_any_key (store : List Toast) (t : Toast) :
    (applyToast store t).any (fun e => e.key == t.key) = true := by
  unfold applyToast
  cases h : store.any (fun e => e.key == t.key) with
  | true =>
    simp only [if_pos rfl, h, if_true, List.any_map]
    obtain ⟨e, he, hk⟩ := List.any_eq_true.mp h
    exact List.any_eq_true.mpr ⟨e, he, by simp [Function.comp, replaceKey, hk]⟩
  | false => simp [h, List.any_append]

/-- A store already holding the key is updated by replacement. -/
theorem applyToast_of_any_true (store : List Toast) (t : Toast)
    (h : store.any (fun e => e.key == t.key) = true) :
    applyToast store t = store.map (replaceKey t) := by
  simp [applyToast, h]

/-- Re-triggering the same keyed toast leaves the store unchanged:
repeated notifications for the same item do not multiply. -/
theorem applyToast_retrigger (store : List Toast) (t : Toast) :
    applyToast (applyToast store t) t = applyToast store t := by
  rw [applyToast_of_any_true _ _ (applyToast_any_key store t)]
  unfold applyToast
  cases h : store.any (fun e => e.key == t.key) with
  | true =>
    rw [if_pos rfl]
    exact map_replaceKey_idem t store
  | false =>
    simp only [h, if_neg, Bool.false_eq_true, not_false_iff, if_false, List.map_append,
      map_replaceKey_of_no_key _ _ h]
    simp [replaceKey]

/-! ## C2 -/

/-- C2: a candidate whose name matches an existing entry
case-insensitively makes add fail with the duplicate error before any
network call, and an update whose new name collides with a record of a
different id fails the same way; in both cases the in-memory collection
is returned exactly unchanged. -/
theorem c2_duplicate_rejected_unchanged :
    (∀ (resp : Except Unit Product) (products : List Product) (c : NewProduct),
      (∃ p ∈ products, lowerStr p.name = lowerStr c.name) →
      addProduct resp products c =
        { products := products, calls := [], error := some AppError.duplicate })
    ∧ (∀ (resp : Except Unit Product) (products : List Product) (up : Product),
      (∃ p ∈ products, lowerStr p.name = lowerStr up.name ∧ p.id ≠ up.id) →
      updateProduct resp products up =
        { products := products, calls := [], error := some AppError.duplicate }) := by
  constructor
  · intro resp products c h
    have hd : dupName products c.name = true := (dupName_iff products c.name).mpr h
    simp [addProduct, hd]
  · intro resp products up h
    have hd : dupNameOther products up = true := (dupNameOther_iff products up).mpr h
    simp [updateProduct, hd]

/-- Witness for C2 at the specification scenario: adding "widget"
against the existing "Widget" is rejected as a duplicate with the
collection unchanged. -/
theorem c2_witness :
    (∃ p ∈ [scWidget], lowerStr p.name = lowerStr cWidgetLower.name)
    ∧ addProduct (Except.ok scGadget) [scWidget] cWidgetLower =
        { products := [scWidget], calls := [], error := some AppError.duplicate } :=
  ⟨by decide, c2_duplicate_rejected_unchanged.1 _ _ _ (by decide)⟩

/-! ## C6 -/

/-- C6: the success path of load emits a low-stock notification exactly
for the fetched items with stock strictly below 10, each keyed by the
item id; re-triggering a keyed notification replaces it instead of
multiplying; and on the collection [Widget with stock 5, Gadget with
stock 50] exactly one notification is emitted, for Widget. -/
theorem c6_low_stock_notifications :
    (∀ fetched : List Product,
      loadNotifs fetched = (fetched.filter (fun p => p.stock < 10)).map lowStockToast)
    ∧ (∀ (store : List Toast) (t : Toast),
      applyToast (applyToast store t) t = applyToast store t)
    ∧ loadNotifs [scWidget, scGadget] = [lowStockToast scWidget]
    ∧ (lowStockToast scWidget).key = str "low-stock-" ++ scWidget.id := by
  refine ⟨fun fetched => ?_, applyToast_retrigger, by decide, rfl⟩
  simpa using loadNotifs_foldl fetched []

/-! ## C7 -/

/-- C7: login succeeds exactly when some account matches both username
and password under case-sensitive equality; on success the session and
its persisted copy hold exactly the username and role of the matched
account; on no match the state is left unchanged (the handler throws). -/
theorem c7_login_iff_match :
    ∀ (accounts : List Account) (username password : Str)
      (st : Option User × Option Str),
      ((loginResult accounts username password).isOk = true ↔
        ∃ a ∈ accounts, a.username = username ∧ a.password = password)
      ∧ (∀ a : Account, accounts.find? (credMatch username password) = some a →
          loginRun accounts username password st =
            (some (sessionOf a), some (stringifyUser (sessionOf a))))
      ∧ ((¬ ∃ a ∈ accounts, a.username = username ∧ a.password = password) →
          loginRun accounts username password st = st) := by
  intro accounts username password st
  refine ⟨?_, ?_, ?_⟩
  · have hs : (loginResult accounts username password).isOk
        = (accounts.find? (credMatch username password)).isSome := by
      unfold loginResult
      cases h : accounts.find? (credMatch username password) <;>
        simp [h, Except.isOk, Except.toBool]
    rw [hs]
    simp [List.find?_isSome, credMatch, Bool.and_eq_true, beq_iff_eq]
  · intro a h
    simp [loginRun, loginResult, h, syncStore]
  · intro h
    have hn : accounts.find? (credMatch username password) = none := by
      rw [List.find?_eq_none]
      intro x hx hpx
      refine h ⟨x, hx, ?_⟩
      simpa [credMatch, Bool.and_eq_true, beq_iff_eq] using hpx
    simp [loginRun, loginResult, hn]

/-- Witness for C7 at the specification scenario: login "admin"/"wrong"
against the account admin/secret fails and the session stays anonymous. -/
theorem c7_witness :
    loginRun [adminAcct] (str "admin") (str "wrong") (none, none) = (none, none) :=
  (c7_login_iff_match [adminAcct] (str "admin") (str "wrong") (none, none)).2.2
    (by decide)

/-! ## C10 -/

/-- C10: every successful login stores, in memory and in the persisted
entry, exactly the username and role of the matched account (the
persisted text is the serialization of that two-field value); logout
clears both; the persistence effect writes only the serialized two-field
session; and the stored session value is independent of the password of
the account it came from. -/
theorem c10_session_no_password :
    (∀ (accounts : List Account) (username password : Str)
        (st : Option User × Option Str) (a : Account),
      accounts.find? (credMatch username password) = some a →
      loginRun accounts username password st =
        (some (sessionOf a), some (stringifyUser (sessionOf a))))
    ∧ (∀ st : Option User × Option Str, logoutRun st = (none, none))
    ∧ (∀ u : Option User, syncStore u = u.map stringifyUser)
    ∧ (∀ a b : Account, a.username = b.username → a.role = b.role →
        sessionOf a = sessionOf b) := by
  refine ⟨?_, fun st => rfl, fun u => rfl, ?_⟩
  · intro accounts username password st a h
    simp [loginRun, loginResult, h, syncStore]
  · intro a b h1 h2
    simp [sessionOf, h1, h2]

/-- Witness for C10: the successful admin login stores exactly username
and role, serialized without the password. -/
theorem c10_witness :
    loginRun [adminAcct] (str "admin") (str "secret") (none, none) =
      (some uAdmin, some (stringifyUser uAdmin)) := by
  have h := c10_session_no_password.1 [adminAcct] (str "admin") (str "secret")
    (none, none) adminAcct (by decide)
  exact h

/-! ## Bulk-upload loop lemmas -/

/-- The bulk loop posts every candidate, counts the successes, and
passes the successes to the add callback, independently of earlier
failures. -/
theorem bulk_foldl (outcome : Candidate → Bool) (cands : List Candidate)
    (calls : List NetCall) (n : Nat) (added : List Candidate) :
    cands.foldl (bulkStep outcome) (calls, n, added)
      = (calls ++ cands.map NetCall.bulkCreate,
         n + (cands.filter outcome).length,
         added ++ cands.filter outcome) := by
  induction cands generalizing calls n added with
  | nil => simp
  | cons c t ih =>
    by_cases h : outcome c = true
    · simp [List.foldl_cons, bulkStep, h, ih, List.filter_cons, Nat.add_comm,
        Nat.add_assoc, Nat.add_left_comm]
    · simp [List.foldl_cons, bulkStep, h, ih, List.filter_cons]

/-- The three observable components of a bulk upload, in terms of the
parsed candidate list. -/
theorem bulkUpload_parts (outcome : Candidate → Bool) (now text : Str) :
    (bulkUpload outcome now text).calls = (parseCSV now text).map NetCall.bulkCreate
    ∧ (bulkUpload outcome now text).successCount
        = ((parseCSV now text).filter outcome).length
    ∧ (bulkUpload outcome now text).added = (parseCSV now text).filter outcome := by
  have h := bulk_foldl outcome (parseCSV now text) [] 0 []
  simp [bulkUpload, h]

/-- The per-line filterMap of the parse is the filter of accepted lines
followed by candidate construction. -/
theorem filterMap_parseLine (now : Str) (lines : List Str) :
    lines.filterMap (parseLine now)
      = (lines.filter lineAccepted).map (mkCandidate now) := by
  induction lines with
  | nil => rfl
  | cons l t ih =>
    by_cases h : lineAccepted l = true
    · simp [List.filterMap_cons, parseLine, h, List.filter_cons, ih]
    · simp [List.filterMap_cons, parseLine, h, List.filter_cons, ih]

/-- The candidates of an import are exactly the post-header lines whose
five required fields are nonempty. -/
theorem parseCSV_eq (now text : Str) :
    parseCSV now text
      = (((splitOnChar '\n' text).drop 1).filter lineAccepted).map (mkCandidate now) :=
  filterMap_parseLine now _

/-! ## C1 -/

/-- C1 counterexample: with the collection holding "Widget", bulk import
of a data line named "widget" (a case-insensitive collision) still
issues its creation network call, so a uniqueness-violating creation via
CSV import is not rejected before the network call. -/
theorem c1_counterexample :
    dupName [scWidget] dupCand.name = true
    ∧ (bulkUpload (fun _ => true) (str "T0") dupText).calls
        = [NetCall.bulkCreate dupCand] := by decide

/-- C1 (amended): form add and update reject case-insensitive name
collisions before any network call, leaving the collection unchanged;
bulk CSV import, however, issues one creation call per parsed candidate
without consulting the collection, so colliding creations do reach the
network. -/
theorem c1_guard_scope :
    (∀ (resp : Except Unit Product) (products : List Product) (c : NewProduct),
      (∃ p ∈ products, lowerStr p.name = lowerStr c.name) →
      (addProduct resp products c).calls = []
        ∧ (addProduct resp products c).products = products)
    ∧ (∀ (resp : Except Unit Product) (products : List Product) (up : Product),
      (∃ p ∈ products, lowerStr p.name = lowerStr up.name ∧ p.id ≠ up.id) →
      (updateProduct resp products up).calls = []
        ∧ (updateProduct resp products up).products = products)
    ∧ (∀ (outcome : Candidate → Bool) (now text : Str),
      (bulkUpload outcome now text).calls
        = (parseCSV now text).map NetCall.bulkCreate) := by
  refine ⟨?_, ?_, fun outcome now text => (bulkUpload_parts outcome now text).1⟩
  · intro resp products c h
    have hd : dupName products c.name = true := (dupName_iff products c.name).mpr h
    simp [addProduct, hd]
  · intro resp products up h
    have hd : dupNameOther products up = true := (dupNameOther_iff products up).mpr h
    simp [updateProduct, hd]

/-- Witness for C1: the colliding form add makes no network call and
leaves the collection unchanged. -/
theorem c1_witness :
    (addProduct (Except.ok scGadget) [scWidget] cWidgetLower).calls = []
    ∧ (addProduct (Except.ok scGadget) [scWidget] cWidgetLower).products
        = [scWidget] :=
  c1_guard_scope.1 _ _ _ (by decide)

/-! ## C3 -/

/-- C3 counterexample: a bulk upload whose only submission fails reports
no final count at all (the claim requires a count of successes to be
reported once processing completes). -/
theorem c3_counterexample :
    (bulkUpload (fun _ => false) (str "T0") oneLineText).calls ≠ []
    ∧ (bulkUpload (fun _ => false) (str "T0") oneLineText).report = none := by
  exact ⟨by decide, by decide⟩

/-- C3 (amended): exactly the post-header lines whose id, name,
category, price and stock fields are nonempty after splitting are
submitted as creation calls; submissions are independent, so the call
trace covers every candidate regardless of failures; the success count
is the number of accepted submissions; and the final count is reported
exactly when it is positive.  The specification scenario of three lines
with one empty price field yields two creation calls and a reported
count of two. -/
theorem c3_bulk_import_behavior :
    (∀ now text : Str, parseCSV now text
      = (((splitOnChar '\n' text).drop 1).filter lineAccepted).map (mkCandidate now))
    ∧ (∀ (outcome : Candidate → Bool) (now text : Str),
      (bulkUpload outcome now text).calls = (parseCSV now text).map NetCall.bulkCreate
      ∧ (bulkUpload outcome now text).successCount
          = ((parseCSV now text).filter outcome).length
      ∧ (bulkUpload outcome now text).report
          = (if 0 < (bulkUpload outcome now text).successCount
             then some (bulkUpload outcome now text).successCount else none))
    ∧ (bulkUpload (fun _ => true) (str "T0") threeLineText).calls.length = 2
    ∧ (bulkUpload (fun _ => true) (str "T0") threeLineText).report = some 2 := by
  refine ⟨parseCSV_eq, fun outcome now text => ?_, by decide, by decide⟩
  obtain ⟨h1, h2, _⟩ := bulkUpload_parts outcome now text
  exact ⟨h1, h2, rfl⟩

/-! ## C4 -/

/-- C4 counterexample: exporting one clean-field product and importing
the produced text under the literal split-on-comma rule does not
reconstruct its (name, category, price, stock) tuple. -/
theorem c4_counterexample :
    (parseCSV (str "T0") (exportCSV [scGadget])).map tupleOfCandidate
      ≠ [scGadget].map tupleOfProduct := by decide

/-- C4 (amended): under the literal parsing rule the round trip fails
systematically rather than reconstructing the tuples: importing the
export of the clean-field product Gadget yields one candidate whose
textual fields all retain the quote characters added by the export and
whose quoted price and stock coerce to NaN. -/
theorem c4_roundtrip_literal :
    parseCSV (str "T0") (exportCSV [scGadget])
      = [{ id := str "\"g1\"", name := str "\"Gadget\"", category := str "\"Books\"",
           price := none, stock := none, description := str "\"\"",
           url := some (str "\"\""), updatedAt := str "\"\"" }] := by decide

/-! ## C5 -/

/-- C5 counterexample: a product whose name contains a quote character
is exported with that quote not doubled, so the produced row differs
from the every-field-escaped row described by the claim. -/
theorem c5_counterexample :
    exportRow quoteNameProd ≠ claimRow quoteNameProd := by decide

/-- Each produced row quotes every field in the fixed order but escapes
only the description. -/
theorem exportRow_eq_amended (p : Product) : exportRow p = amendedRow p := by
  simp [exportRow, amendedRow, List.intercalate, quoteField]

/-- C5 (amended): the delimited export is the fixed 8-column header
followed by one row per product with the fields in order, every field
quoted but only the description field having internal quotes doubled;
the Navbar variant of the export instead emits unquoted fields and
rewrites every comma of the row, separators included, into a space. -/
theorem c5_export_format :
    (∀ products : List Product,
      exportCSV products
        = List.intercalate ['\n'] (csvHeader :: products.map amendedRow))
    ∧ csvHeader = str "ID,Name,Category,Price,Stock,Description,URL,UpdatedAt"
    ∧ navbarRow commaDescProd = str "g1 Gadget Books 30 50 red  blue  " := by
  refine ⟨fun products => ?_, rfl, by decide⟩
  have h : exportRow = amendedRow := funext exportRow_eq_amended
  simp [exportCSV, h]

/-! ## C8 -/

/-- C8 counterexample: a malformed persisted value makes session
restoration fail with a parse error instead of yielding the anonymous
session. -/
theorem c8_counterexample :
    restoreSession (some (str "x")) = Except.error (str "parse error") := rfl

/-- C8 (amended): restoration yields the anonymous session, without
failing, when the persisted entry is absent or empty, and restores the
stored session value when the entry is the application-written
serialization; but a malformed non-empty entry propagates the JSON
parse failure instead of falling back to the anonymous session. -/
theorem c8_restoration_behavior :
    restoreSession none = Except.ok none
    ∧ restoreSession (some []) = Except.ok none
    ∧ restoreSession (some (stringifyUser uAdmin)) = Except.ok (some uAdmin)
    ∧ (restoreSession (some (str "x"))).isOk = false := ⟨rfl, rfl, rfl, rfl⟩

/-! ## C9 -/

/-- Stable insertion permutes the inserted element to the front. -/
theorem jsInsert_perm (cmp : Product → Product → Int) (x : Product)
    (l : List Product) : List.Perm (jsInsert cmp x l) (x :: l) := by
  induction l with
  | nil => exact List.Perm.refl _
  | cons y t ih =>
    by_cases h : cmp y x < 0
    · simp only [jsInsert, if_pos h]
      exact (ih.cons y).trans (List.Perm.swap x y t)
    · simp only [jsInsert, if_neg h]
      exact List.Perm.refl _

/-- The modelled in-place sort permutes the collection. -/
theorem jsSort_perm (cmp : Product → Product → Int) (l : List Product) :
    List.Perm (jsSort cmp l) l := by
  induction l with
  | nil => exact List.Perm.refl _
  | cons x t ih => exact (jsInsert_perm cmp x (jsSort cmp t)).trans (ih.cons x)

/-- C9 counterexample: computing the dashboard recent-updates view on a
two-product collection reorders the base collection, so the base is not
identical before and after computing the view. -/
theorem c9_counterexample :
    (recentUpdatesRun [prodEarly, prodLate]).2 ≠ [prodEarly, prodLate] := by decide

/-- C9 (amended): the product list filter/sort view leaves the base
collection untouched (the in-place sort runs on a filtered copy), but
the dashboard recent-updates view sorts the base collection in place:
afterwards the base holds the same products permuted into descending
updatedAt order. -/
theorem c9_views_mutation :
    (∀ (search categoryFilter sortBy : Str) (products : List Product),
      (filteredProductsRun search categoryFilter sortBy products).2 = products)
    ∧ (∀ products : List Product,
      (recentUpdatesRun products).2 = jsSort updatedDescCmp products
      ∧ List.Perm (recentUpdatesRun products).2 products)
    ∧ (recentUpdatesRun [prodEarly, prodLate]).2 = [prodLate, prodEarly] := by
  refine ⟨fun _ _ _ _ => rfl, fun products => ⟨rfl, jsSort_perm _ _⟩, by decide⟩
